import Mathlib

/-!
Verification development for the LLM Legal Council orchestration core
(orchestrator / audit / chairman-selection logic).

The TypeScript source is shallowly embedded: pure computations
(aggregate rankings, chairman selection, audit statistics, process
integrity) become Lean functions over the same data model; the
concurrency-limited dispatcher `withConcurrencyLimit` becomes an
explicit small-step scheduler over worker states; the top-level
`deliberate` pipeline becomes a pure function parameterised by the
outcomes of the external model calls (which are I/O and live outside
the embedded core).  JavaScript numbers that carry exact statistics
(average rank, variance, consistency) are modelled as rationals.
-/

namespace LegalCouncil

/-! ## Data model (mirrors `types.ts`) -/

/-- Self-reported confidence of a Stage-1 analysis. -/
inductive Confidence
  | low
  | medium
  | high
deriving DecidableEq, Repr

/-- Severity of an audit anomaly. -/
inductive Severity
  | critical
  | warning
  | info
deriving DecidableEq, Repr

/-- Anomaly type (the `AnomalyType` union in `types.ts`). -/
inductive AnomalyType
  | confidenceMismatch
  | citationConsensus
  | thresholdGap
  | rankingOutlier
  | synthesisDivergence
  | latencyOutlier
  | retryExcessive
  | dissentSuppression
  | quorumRisk
  | singleSourceDominance
  | modelFailure
deriving DecidableEq, Repr

/-- Which stage an anomaly or error belongs to (`1 | 2 | 3 | 'cross-stage'`). -/
inductive StageTag
  | stage1
  | stage2
  | stage3
  | crossStage
deriving DecidableEq, Repr

/-- An audit anomaly (`AuditAnomaly` in `types.ts`). -/
structure AuditAnomaly where
  stage : StageTag
  severity : Severity
  type : AnomalyType
  description : String
  affectedModels : Option (List String) := none
  recommendation : Option String := none
deriving DecidableEq, Repr

/-- A per-member stage error (`StageError` in `types.ts`). -/
structure StageError where
  stage : Nat
  modelId : Option String
  message : String
  recoverable : Bool
deriving DecidableEq, Repr

/-- The model payload of a successfully parsed structured Stage-1 analysis.
`assessment` is the structured `assessment` field when it is present as a
string; `serialized` stands for the JSON text `JSON.stringify` produces for
the whole structured payload (the payload itself is `unknown` in the source,
so only the parts the embedded code inspects are modelled). -/
structure StructuredAnalysis where
  assessment : Option String
  serialized : String
deriving DecidableEq, Repr

/-- A Stage-1 analysis (`IndividualAnalysis` in `types.ts`).  The `_modelId`
and `_structured` fields of the source are `modelId` and `structured` here
(internal-only fields; optional in the source). -/
structure IndividualAnalysis where
  label : String
  content : String
  confidence : Confidence
  keyPoints : List String
  modelId : Option String
  structured : Option StructuredAnalysis
deriving DecidableEq, Repr

/-- Four 1-5 subscores plus an optional comment (`AnalysisEvaluation`). -/
structure AnalysisEvaluation where
  legalAccuracy : Nat
  issueIdentification : Nat
  riskCalibration : Nat
  practicalUtility : Nat
  comment : Option String := none
deriving DecidableEq, Repr

/-- A Stage-2 peer review (`PeerReview` in `types.ts`); `_reviewerModelId`
becomes `reviewerModelId`.  The `evaluations` record is modelled as an
association list. -/
structure PeerReview where
  reviewerLabel : String
  evaluations : List (String × AnalysisEvaluation)
  ranking : List String
  rankingRationale : String
  reviewerModelId : Option String
deriving DecidableEq, Repr

/-- An aggregate ranking entry (`AggregateRanking` in `types.ts`). -/
structure AggregateRanking where
  label : String
  averageRank : Rat
  rankingConsistency : Rat
deriving DecidableEq, Repr

/-- Stage-1 result (`Stage1Result`). -/
structure Stage1Result where
  analyses : List IndividualAnalysis
  complete : Bool
  errors : List StageError
deriving DecidableEq, Repr

/-- Stage-2 result (`Stage2Result`). -/
structure Stage2Result where
  peerReviews : List PeerReview
  aggregateRankings : List AggregateRanking
  complete : Bool
  errors : List StageError
deriving DecidableEq, Repr

/-- Consensus block of a synthesis (`ConsensusResult`). -/
structure ConsensusResult where
  reached : Bool
  position : String
  confidence : Rat
  agreementCount : Nat
  totalMembers : Nat
deriving DecidableEq, Repr

/-- An issue identified during deliberation (`IdentifiedIssue`). -/
structure IdentifiedIssue where
  issue : String
  severity : String
  flaggedByCount : Nat
  unanimous : Bool
  explanation : Option String := none
deriving DecidableEq, Repr

/-- A risk factor (`RiskFactor`). -/
structure RiskFactor where
  risk : String
  likelihood : String
  impact : String
  councilAgreement : String
deriving DecidableEq, Repr

/-- Calibrated risk block (`CalibratedRisk`). -/
structure CalibratedRisk where
  overallLevel : String
  factors : List RiskFactor
  catastrophizingDetected : Bool
  understatingDetected : Bool
  calibrationNotes : String
deriving DecidableEq, Repr

/-- A preserved dissenting view (`DissentingView`). -/
structure DissentingView where
  position : String
  reasoning : String
  supportedByCount : Nat
  noteworthy : Bool
deriving DecidableEq, Repr

/-- A weakness found during work-product review (`IdentifiedWeakness`). -/
structure IdentifiedWeakness where
  weakness : String
  location : Option String := none
  exploitability : String
  suggestedFix : Option String := none
deriving DecidableEq, Repr

/-- An action item (`ActionItem`). -/
structure ActionItem where
  item : String
  priority : String
  rationale : String
  blocking : Bool
deriving DecidableEq, Repr

/-- The Stage-3 synthesis object (`Stage3Synthesis`). -/
structure Stage3Synthesis where
  consensus : ConsensusResult
  issues : List IdentifiedIssue
  risk : CalibratedRisk
  dissent : List DissentingView
  weaknesses : List IdentifiedWeakness
  openQuestions : List String
  actionItems : List ActionItem
deriving DecidableEq, Repr

/-- Stage-3 result (`Stage3Result`). -/
structure Stage3Result where
  synthesis : Stage3Synthesis
  chairmanModel : String
  complete : Bool
  errors : List StageError
deriving DecidableEq, Repr

/-- A council member (`CouncilMember`). -/
structure CouncilMember where
  modelId : String
  sessionLabel : Option String
  role : String
deriving DecidableEq, Repr

/-- The configuration slice the orchestrator core reads (`CouncilConfig`). -/
structure CouncilConfig where
  councilModels : List String
  chairmanOverrideModel : Option String
  fallbackChairmanModel : String
  minimumSeats : Nat
  concurrencyLimit : Nat
deriving DecidableEq, Repr

/-! ## Bounded concurrent dispatcher (`withConcurrencyLimit`)

The source spawns `min(limit, tasks.length)` cooperative workers over a
shared cursor; each worker claims the next index and awaits that task,
writing the value (or `null`, if the task threw) into that slot.  The
embedding makes the event-loop nondeterminism explicit: a task's eventual
outcome is `Except Unit α` (`.error ()` models a throw), a scheduler state
records the shared cursor, the result slots and each worker's state, and a
schedule is an arbitrary list of worker indices - each entry lets that
worker take its next synchronous step.  Result slots hold
`Option (Except Unit α)` so that "was never executed" (`none`) is
distinguishable from "executed and threw" (`some (.error ())`). -/

/-- The state of one cooperative worker of `withConcurrencyLimit`. -/
inductive WorkerState
  | idle
  | running (idx : Nat)
  | finished
deriving DecidableEq, Repr

/-- Scheduler state of the dispatcher: the shared claim cursor, the result
slot array, and the worker pool. -/
structure SchedState (α : Type) where
  cursor : Nat
  results : List (Option (Except Unit α))
  workers : List WorkerState

/-- One synchronous step of worker `w`: an idle worker either claims the
next unclaimed index (when the cursor has not passed the end) or
terminates; a worker awaiting task `i` receives that task's outcome and
stores it at slot `i` (a throw is caught locally and stored, never
propagated); steps of finished or nonexistent workers are no-ops. -/
def schedStep {α : Type} (tasks : List (Except Unit α)) (s : SchedState α) (w : Nat) :
    SchedState α :=
  match s.workers[w]? with
  | none => s
  | some .finished => s
  | some .idle =>
      if s.cursor < tasks.length then
        ⟨s.cursor + 1, s.results, s.workers.set w (.running s.cursor)⟩
      else
        ⟨s.cursor, s.results, s.workers.set w .finished⟩
  | some (.running i) =>
      ⟨s.cursor, s.results.set i (some (tasks.getD i (.error ()))), s.workers.set w .idle⟩

/-- Run the dispatcher under a given schedule (list of worker choices). -/
def schedRun {α : Type} (tasks : List (Except Unit α)) (s : SchedState α)
    (schedule : List Nat) : SchedState α :=
  schedule.foldl (schedStep tasks) s

/-- Initial dispatcher state: cursor at 0, all `tasks.length` result slots
unwritten, and `min limit tasks.length` idle workers. -/
def schedInit (α : Type) (taskCount limit : Nat) : SchedState α :=
  ⟨0, List.replicate taskCount none, List.replicate (min limit taskCount) .idle⟩

/-- The dispatcher has resolved: every worker's loop has terminated. -/
def SchedDone {α : Type} (s : SchedState α) : Prop :=
  ∀ ws ∈ s.workers, ws = WorkerState.finished

instance {α : Type} (s : SchedState α) : Decidable (SchedDone s) :=
  inferInstanceAs (Decidable (∀ ws ∈ s.workers, ws = WorkerState.finished))

/-- The `(T | null)[]` array the caller of `withConcurrencyLimit` observes:
slot `i` is the resolved value of task `i`, or the `null` sentinel when the
task threw (or was never written). -/
def observedResults {α : Type} (s : SchedState α) : List (Option α) :=
  s.results.map fun r =>
    match r with
    | some (.ok v) => some v
    | _ => none

/-- The sentinel-or-value a single task outcome contributes to the result
array of `withConcurrencyLimit`. -/
def outcomeValue {α : Type} (o : Except Unit α) : Option α :=
  match o with
  | .ok v => some v
  | .error _ => none

/-! ## Aggregation engine (`calculateAggregateRankings`) -/

/-- The 1-indexed positions of `label` across exactly the reviews whose
`ranking` contains it (`review.ranking.indexOf(label)`, skipped on `-1`). -/
def positionsOf (reviews : List PeerReview) (label : String) : List Nat :=
  reviews.filterMap fun review =>
    if label ∈ review.ranking then some (review.ranking.indexOf label + 1) else none

/-- Arithmetic mean of a list of positions (exact rational). -/
def listMean (l : List Nat) : Rat :=
  (l.map fun p => (p : Rat)).sum / l.length

/-- Population variance of a list of positions (exact rational). -/
def listPopVariance (l : List Nat) : Rat :=
  (l.map fun p => ((p : Rat) - listMean l) ^ 2).sum / l.length

/-- The aggregate-ranking entry for one label, or `none` when no review
ranks it.  `totalAnalyses` is `analyses.length` in the source; the
consistency is `1 - variance / (N-1)^2` (or `1` when `(N-1)^2 = 0`),
clamped below at `0` by `Math.max(0, ...)`. -/
def aggregateEntry (reviews : List PeerReview) (totalAnalyses : Nat) (label : String) :
    Option AggregateRanking :=
  let positions := positionsOf reviews label
  if positions.isEmpty then none
  else
    let avgRank := listMean positions
    let variance := listPopVariance positions
    let maxVariance : Rat := ((totalAnalyses : Rat) - 1) ^ 2
    let consistency : Rat := if 0 < maxVariance then 1 - variance / maxVariance else 1
    some ⟨label, avgRank, max 0 consistency⟩

/-- Comparator used to sort aggregate rankings ascending by average rank
(`(a, b) => a.averageRank - b.averageRank`). -/
def rankLE (x y : AggregateRanking) : Prop :=
  x.averageRank ≤ y.averageRank

instance rankLE.decidableRel : DecidableRel rankLE :=
  fun x y => inferInstanceAs (Decidable (x.averageRank ≤ y.averageRank))

instance rankLE.isTotal : IsTotal AggregateRanking rankLE :=
  ⟨fun a b => le_total a.averageRank b.averageRank⟩

instance rankLE.isTrans : IsTrans AggregateRanking rankLE :=
  ⟨fun _ _ _ hab hbc => le_trans hab hbc⟩

/-- Embeds `LegalCouncilOrchestrator.calculateAggregateRankings`: one entry per
Stage-1 analysis whose label appears in at least one review's ranking, in
ascending `averageRank` order.  (`Array.prototype.sort` is a stable
comparison sort; insertion sort models it.) -/
def calculateAggregateRankings (reviews : List PeerReview)
    (analyses : List IndividualAnalysis) : List AggregateRanking :=
  List.insertionSort rankLE
    (analyses.filterMap fun analysis => aggregateEntry reviews analyses.length analysis.label)

/-! ## Chairman selection (`selectChairman` in `audit.ts`) -/

/-- How the chairman was chosen. -/
inductive SelectionMethod
  | userSpecified
  | algorithmic
  | fallback
deriving DecidableEq, Repr

/-- One entry of `alternativesConsidered`. -/
structure ChairmanAlternative where
  model : String
  averageRank : Rat
deriving DecidableEq, Repr

/-- Result of `selectChairman` (`ChairmanSelectionResult`). -/
structure ChairmanSelectionResult where
  model : String
  method : SelectionMethod
  rationale : String
  alternativesConsidered : Option (List ChairmanAlternative)
deriving DecidableEq, Repr

/-- JavaScript `v || dflt` for an optional string: `undefined` and the
empty string are falsy. -/
def jsStringOr (v : Option String) (dflt : String) : String :=
  match v with
  | some s => if s = "" then dflt else s
  | none => dflt

/-- Two-digit zero-padding for the fractional part of `toFixed(2)`. -/
def pad2 (k : Nat) : String :=
  if k < 10 then "0" ++ toString k else toString k

/-- Model of JavaScript `Number.prototype.toFixed(2)` for the nonnegative
exact rationals produced by rank averaging (round half up to hundredths). -/
def ratToFixed2 (q : Rat) : String :=
  let n := (Rat.floor (q * 100 + 1 / 2)).toNat
  toString (n / 100) ++ "." ++ pad2 (n % 100)

/-- Fallback branch of `selectChairman`: first responding model, or the
`'unknown'` sentinel when there is no first responder (or it carries no
model id). -/
def fallbackSelection (stage1 : Stage1Result) : ChairmanSelectionResult :=
  { model := jsStringOr (stage1.analyses.head?.bind fun a => a.modelId) "unknown"
    method := .fallback
    rationale := "Fallback to first responding model (ranking data unavailable)"
    alternativesConsidered := none }

/-- Algorithmic branch of `selectChairman`: the model behind the top entry
of the (already ascending-sorted) aggregate rankings, with up to the top 3
candidates as alternatives; falls back when rankings are empty or the top
label has no analysis with a (truthy) model id. -/
def algorithmicSelection (stage1 : Stage1Result) (stage2 : Stage2Result) :
    ChairmanSelectionResult :=
  match stage2.aggregateRankings with
  | [] => fallbackSelection stage1
  | topRanked :: _ =>
      match (stage1.analyses.find? fun a => a.label = topRanked.label) with
      | none => fallbackSelection stage1
      | some topAnalysis =>
          match topAnalysis.modelId with
          | none => fallbackSelection stage1
          | some mid =>
              if mid = "" then fallbackSelection stage1
              else
                { model := mid
                  method := .algorithmic
                  rationale := "Highest peer-ranked analysis (avg rank " ++
                    ratToFixed2 topRanked.averageRank ++ ")"
                  alternativesConsidered := some
                    ((stage2.aggregateRankings.take 3).map fun r =>
                      { model := jsStringOr
                          ((stage1.analyses.find? fun a => a.label = r.label).bind
                            fun a => a.modelId) r.label
                        averageRank := r.averageRank }) }

/-- Embeds `selectChairman(stage1, stage2, userOverride)`: a (truthy) user
override that actually produced a Stage-1 analysis wins; otherwise the
algorithmic branch; otherwise the fallback.  The `console.warn` on a
non-participating override is a dropped side effect. -/
def selectChairman (stage1 : Stage1Result) (stage2 : Stage2Result)
    (userOverride : Option String) : ChairmanSelectionResult :=
  match userOverride with
  | some ov =>
      if ov = "" then algorithmicSelection stage1 stage2
      else if stage1.analyses.any fun a => a.modelId == some ov then
        { model := ov
          method := .userSpecified
          rationale := "User specified chairman"
          alternativesConsidered := none }
      else algorithmicSelection stage1 stage2
  | none => algorithmicSelection stage1 stage2

/-! ## Stage 3 (`runStage3WithChairman`) -/

/-- Outcome of the single chairman model call, as seen by the embedded
Stage-3 executor: the call returned content that validated against the
Stage-3 schema, returned content that failed validation (`invalidShape`
carries the result of the best-effort `extractPartialSynthesis`), or threw
(`failure` carries the error message). -/
inductive ChairmanCallOutcome
  | success (synthesis : Stage3Synthesis)
  | invalidShape (extracted : Stage3Synthesis)
  | failure (message : String)
deriving DecidableEq, Repr

/-- Embeds `getEmptySynthesis()`: the explicitly empty synthesis returned when the
chairman call fails. -/
def getEmptySynthesis (totalMembers : Nat) : Stage3Synthesis :=
  { consensus :=
      { reached := false
        position := "Synthesis failed - see errors"
        confidence := 0
        agreementCount := 0
        totalMembers := totalMembers }
    issues := []
    risk :=
      { overallLevel := "medium"
        factors := []
        catastrophizingDetected := false
        understatingDetected := false
        calibrationNotes := "Unable to complete risk assessment" }
    dissent := []
    weaknesses := []
    openQuestions := []
    actionItems := [] }

/-- Embeds `runStage3WithChairman`, as a function of the chairman call's outcome.
Validation failure degrades to the partial extraction with a recoverable
error; a thrown call returns the empty synthesis, `complete := false` and a
non-recoverable error carrying the chairman's model id. -/
def runStage3WithChairman (councilSize : Nat) (chairmanModel : String)
    (outcome : ChairmanCallOutcome) : Stage3Result :=
  match outcome with
  | .success synthesis =>
      { synthesis
        chairmanModel
        complete := true
        errors := [] }
  | .invalidShape extracted =>
      { synthesis := extracted
        chairmanModel
        complete := true
        errors := [⟨3, none,
          "Chairman response did not fully validate, using partial extraction", true⟩] }
  | .failure message =>
      { synthesis := getEmptySynthesis councilSize
        chairmanModel
        complete := false
        errors := [⟨3, some chairmanModel, message, false⟩] }

/-! ## Deliberation controller (`deliberate`) -/

/-- Constant `DEFAULT_MINIMUM_QUORUM` in `orchestrator.ts`. -/
def DEFAULT_MINIMUM_QUORUM : Nat := 2

/-- Embeds `this.config.minimumSeats || DEFAULT_MINIMUM_QUORUM` (JavaScript `||`:
0 is falsy). -/
def minimumQuorumOf (config : CouncilConfig) : Nat :=
  if config.minimumSeats = 0 then DEFAULT_MINIMUM_QUORUM else config.minimumSeats

/-- Positional session label: index 0 is `"A"`, 1 is `"B"`, ...
(`String.fromCharCode(65 + index)`). -/
def labelOfIndex (i : Nat) : String :=
  String.mk [Char.ofNat (65 + i)]

/-- Embeds `assignLabels`: one council member per configured model id, labelled
positionally. -/
def assignLabels (modelIds : List String) : List CouncilMember :=
  modelIds.enum.map fun p =>
    { modelId := p.2
      sessionLabel := some (labelOfIndex p.1)
      role := "member" }

/-- The pure tail of `runStage2`, parameterised by the per-member review
call outcomes (the model calls themselves are external I/O): collect the
successful reviews and per-member errors, and compute the aggregate
rankings from the full review set. -/
def runStage2Model (stage1 : Stage1Result) (members : List CouncilMember)
    (reviewOutcomes : List (Except StageError PeerReview)) : Stage2Result :=
  let peerReviews := reviewOutcomes.filterMap fun o => o.toOption
  let errors := reviewOutcomes.filterMap fun o =>
    match o with
    | .error e => some e
    | .ok _ => none
  { peerReviews
    aggregateRankings := calculateAggregateRankings peerReviews stage1.analyses
    complete := peerReviews.length == members.length
    errors }

/-- Embeds `CouncilQuorumError`: the typed quorum failure thrown by
`deliberate()`, carrying the actual and required counts and the underlying
per-member stage errors. -/
structure CouncilQuorumError where
  message : String
  actualCount : Nat
  requiredCount : Nat
  underlyingErrors : List StageError
deriving DecidableEq, Repr

/-- The two ways `deliberate()` aborts by throwing: the upstream
appropriateness gate (a plain `Error`), or a quorum failure. -/
inductive DeliberationAbort
  | inappropriate (reason : String)
  | quorum (e : CouncilQuorumError)
deriving DecidableEq, Repr

/-- The pure slice of the final `CouncilDeliberation` result object
(session id, timestamp, usage and audit bookkeeping are external
state and are not modelled; `stage1`-`stage3` are `_stageResults`). -/
structure CouncilDeliberation where
  query : String
  consensus : ConsensusResult
  issuesIdentified : List IdentifiedIssue
  riskAssessment : CalibratedRisk
  dissent : List DissentingView
  weaknessesFound : List IdentifiedWeakness
  openQuestions : List String
  actionItems : List ActionItem
  stage1 : Stage1Result
  stage2 : Stage2Result
  stage3 : Stage3Result
  participatingModels : List String
  chairmanModel : String
deriving DecidableEq, Repr

/-- Embeds `constructDeliberation` (pure fields). -/
def constructDeliberation (queryText : String) (stage1 : Stage1Result)
    (stage2 : Stage2Result) (stage3 : Stage3Result)
    (members : List CouncilMember) : CouncilDeliberation :=
  { query := queryText
    consensus := stage3.synthesis.consensus
    issuesIdentified := stage3.synthesis.issues
    riskAssessment := stage3.synthesis.risk
    dissent := stage3.synthesis.dissent
    weaknessesFound := stage3.synthesis.weaknesses
    openQuestions := stage3.synthesis.openQuestions
    actionItems := stage3.synthesis.actionItems
    stage1
    stage2
    stage3
    participatingModels :=
      (members.filter fun m =>
        stage1.analyses.any fun a => a.modelId == some m.modelId).map fun m => m.modelId
    chairmanModel := stage3.chairmanModel }

/-- Message of the Stage-1 quorum failure. -/
def stage1QuorumMessage (actual totalMembers minQuorum : Nat) : String :=
  "Council failed to reach quorum. Only " ++ toString actual ++ " of " ++
    toString totalMembers ++ " members responded. Minimum required: " ++ toString minQuorum

/-- Message of the Stage-2 quorum failure. -/
def stage2QuorumMessage (actual minQuorum : Nat) : String :=
  "Peer review failed to reach quorum. Only " ++ toString actual ++
    " reviews completed. Minimum required: " ++ toString minQuorum

/-- The deliberation pipeline of `deliberate()` from the appropriateness
gate onward, parameterised by the outcomes of the external model calls:
`appropriateReject` is `some reason` when `isAppropriateForCouncil`
rejects, `stage1` is the finished Stage-1 result, `reviewOutcomes` the
per-member Stage-2 call outcomes, and `chairmanCall` the Stage-3 call
outcome as a function of whichever model is selected as chairman.  Quorum
is checked after Stage 1 (before any Stage-2 work) and after Stage 2. -/
def deliberate (config : CouncilConfig) (appropriateReject : Option String)
    (queryText : String) (stage1 : Stage1Result)
    (reviewOutcomes : List (Except StageError PeerReview))
    (chairmanCall : String → ChairmanCallOutcome) :
    Except DeliberationAbort CouncilDeliberation :=
  match appropriateReject with
  | some reason => .error (.inappropriate reason)
  | none =>
      let councilMembers := assignLabels config.councilModels
      let minQuorum := minimumQuorumOf config
      if stage1.analyses.length < minQuorum then
        .error (.quorum
          { message := stage1QuorumMessage stage1.analyses.length councilMembers.length minQuorum
            actualCount := stage1.analyses.length
            requiredCount := minQuorum
            underlyingErrors := stage1.errors })
      else
        let stage2 := runStage2Model stage1 councilMembers reviewOutcomes
        if stage2.peerReviews.length < minQuorum then
          .error (.quorum
            { message := stage2QuorumMessage stage2.peerReviews.length minQuorum
              actualCount := stage2.peerReviews.length
              requiredCount := minQuorum
              underlyingErrors := stage2.errors })
        else
          let chairmanSelection := selectChairman stage1 stage2 config.chairmanOverrideModel
          let stage3 := runStage3WithChairman config.councilModels.length
            chairmanSelection.model (chairmanCall chairmanSelection.model)
          .ok (constructDeliberation queryText stage1 stage2 stage3 councilMembers)

/-! ## Audit collector (`audit.ts`) -/

/-- Constant `MINIMUM_QUORUM` in `audit.ts` (hard-coded, independent of the
configured `minimumSeats`). -/
def AUDIT_MINIMUM_QUORUM : Nat := 2

/-- Ranking-consensus tier of the Stage-2 audit. -/
inductive ConsensusTier
  | strong
  | moderate
  | weak
  | none
deriving DecidableEq, Repr

/-- The ranking-consensus computation of `buildStage2Audit`: unique top
picks (`ranking[0]`, which is `undefined` for an empty ranking - modelled
as `Option`) against the reviewer count, with the moderate threshold
`Math.ceil(length / 2)`. -/
def rankingConsensusOf (peerReviews : List PeerReview) : ConsensusTier :=
  let topPicks := peerReviews.map fun r => r.ranking.head?
  let uniqueTopPicks := topPicks.dedup.length
  if uniqueTopPicks = 1 then .strong
  else if uniqueTopPicks ≤ (peerReviews.length + 1) / 2 then .moderate
  else if uniqueTopPicks < peerReviews.length then .weak
  else .none

/-- Modelled from the spec's words, for comparison with
`rankingConsensusOf`: `moderate` when unique top picks is "at most half
the reviewer count" (exact halves: `u ≤ n / 2`, stated integrally as
`2 * u ≤ n`, not rounded up). -/
def rankingConsensusSpec (peerReviews : List PeerReview) : ConsensusTier :=
  let topPicks := peerReviews.map fun r => r.ranking.head?
  let uniqueTopPicks := topPicks.dedup.length
  if uniqueTopPicks = 1 then .strong
  else if 2 * uniqueTopPicks ≤ peerReviews.length then .moderate
  else if uniqueTopPicks < peerReviews.length then .weak
  else .none

/-- The `structured?.assessment as string || ''` extraction used by
`buildStage3Audit` to identify materially distinct Stage-1 positions. -/
def assessmentOf (a : IndividualAnalysis) : String :=
  match a.structured with
  | Option.none => ""
  | some s =>
      match s.assessment with
      | Option.none => ""
      | some t => if t = "" then "" else t

/-- Number of materially distinct Stage-1 positions
(`new Set(analyses.map(assessment)).size`). -/
def uniquePositionsCount (analyses : List IndividualAnalysis) : Nat :=
  (analyses.map assessmentOf).dedup.length

/-- Embeds `dissentSuppressed` in `buildStage3Audit`:
`Math.max(0, uniquePositions - 1 - dissentPreserved)`. -/
def dissentSuppressedCount (analyses : List IndividualAnalysis)
    (synthesis : Stage3Synthesis) : Nat :=
  (max 0 ((uniquePositionsCount analyses : Int) - 1 - synthesis.dissent.length)).toNat

/-- Modelled from the spec's words, for comparison with
`dissentSuppressedCount`: distinct positions minus the preserved dissent
entries, floored at 0 (without the source's extra `- 1`). -/
def dissentSuppressedSpec (analyses : List IndividualAnalysis)
    (synthesis : Stage3Synthesis) : Nat :=
  (max 0 ((uniquePositionsCount analyses : Int) - synthesis.dissent.length)).toNat

/-- The dissent-suppression anomaly list of `buildStage3Audit`: a warning
is emitted exactly when `dissentSuppressed > 0`. -/
def dissentSuppressionAnomalies (analyses : List IndividualAnalysis)
    (synthesis : Stage3Synthesis) : List AuditAnomaly :=
  if 0 < dissentSuppressedCount analyses synthesis then
    [{ stage := .stage3
       severity := .warning
       type := .dissentSuppression
       description := toString (dissentSuppressedCount analyses synthesis) ++
         " potentially distinct position(s) not preserved in dissent"
       affectedModels := Option.none
       recommendation := some "Review stage 1 analyses for suppressed minority views" }]
  else []

/-- Per-model Stage-1 metrics (`Stage1ModelMetrics`). -/
structure Stage1ModelMetrics where
  latencyMs : Nat
  tokensUsed : Nat
  confidenceStated : Confidence
  thresholdIssuesIdentified : Nat
  citationsUsed : Nat
  adversarialArgumentProvided : Bool
  retries : Nat
deriving DecidableEq, Repr

/-- Stage-1 audit (`Stage1Audit`; the `Record` becomes an assoc list). -/
structure Stage1Audit where
  modelsQueried : List String
  modelsResponded : List String
  modelsFailed : List String
  perModelMetrics : List (String × Stage1ModelMetrics)
  anomalies : List AuditAnomaly
deriving DecidableEq, Repr

/-- Row of the Stage-2 agreement matrix. -/
structure AgreementRow where
  agreedWith : List String
  disagreedWith : List String
deriving DecidableEq, Repr

/-- Per-analysis ranking statistics of the Stage-2 audit. -/
structure RankStatistics where
  averageRank : Rat
  rankVariance : Rat
  highestRank : Nat
  lowestRank : Nat
deriving DecidableEq, Repr

/-- An outlier-review record of the Stage-2 audit. -/
structure OutlierReview where
  reviewerLabel : String
  deviation : String
deriving DecidableEq, Repr

/-- Stage-2 audit (`Stage2Audit`). -/
structure Stage2Audit where
  reviewsCompleted : Nat
  rankingConsensus : ConsensusTier
  agreementMatrix : List (String × AgreementRow)
  perAnalysisRankings : List (String × RankStatistics)
  outlierReviews : List OutlierReview
  citationsAcrossAnalyses : Option (List (String × List String))
  anomalies : List AuditAnomaly
deriving DecidableEq, Repr

/-- Risk-calibration block of the Stage-3 audit. -/
structure RiskCalibrationAudit where
  catastrophizingDetected : Bool
  understatingDetected : Bool
  calibrationAction : String
deriving DecidableEq, Repr

/-- Stage-3 audit (`Stage3Audit`). -/
structure Stage3Audit where
  chairmanModel : String
  consensusReached : Bool
  dissentPreserved : Nat
  dissentSuppressed : Nat
  riskCalibration : RiskCalibrationAudit
  citationsInSynthesis : Nat
  sourceReliance : List (String × Nat)
  anomalies : List AuditAnomaly
deriving DecidableEq, Repr

/-- Overall process-integrity verdict. -/
inductive IntegrityScore
  | high
  | medium
  | low
deriving DecidableEq, Repr

/-- Mirrors `ProcessIntegrity`. -/
structure ProcessIntegrity where
  score : IntegrityScore
  flags : List String
  recommendations : List String
deriving DecidableEq, Repr

/-- Embeds `AuditCollector.calculateProcessIntegrity`, with the source's
sequential mutation of `score` / `flags` / `recommendations` unrolled into
explicit staging (each `let` corresponds to one `if` block, in source
order).  `totalModels` is accepted but unused, as in the source. -/
def calculateProcessIntegrity (stage1Audit : Stage1Audit) (stage2Audit : Stage2Audit)
    (stage3Audit : Stage3Audit) (crossStageAnomalies : List AuditAnomaly)
    (totalModels : Nat) : ProcessIntegrity :=
  let _ := totalModels
  let allAnomalies := stage1Audit.anomalies ++ stage2Audit.anomalies ++
    stage3Audit.anomalies ++ crossStageAnomalies
  let criticalCount := (allAnomalies.filter fun a => a.severity == .critical).length
  let warningCount := (allAnomalies.filter fun a => a.severity == .warning).length
  let score1 : IntegrityScore := if 0 < criticalCount then .low else .high
  let flags1 : List String :=
    if 0 < criticalCount then
      [toString criticalCount ++ " critical anomal" ++
        (if 1 < criticalCount then "ies" else "y") ++ " detected"]
    else []
  let recs1 : List String :=
    if 0 < criticalCount then ["Review critical anomalies before relying on synthesis"] else []
  let warnHit := 3 ≤ warningCount ∧ score1 ≠ IntegrityScore.low
  let score2 := if warnHit then IntegrityScore.medium else score1
  let flags2 := flags1 ++ (if warnHit then [toString warningCount ++ " warnings detected"] else [])
  let bareQuorum := stage1Audit.modelsResponded.length = AUDIT_MINIMUM_QUORUM
  let flags3 := flags2 ++ (if bareQuorum then ["Bare minimum quorum achieved"] else [])
  let score3 := if bareQuorum ∧ score2 = IntegrityScore.high then IntegrityScore.medium else score2
  let flags4 := flags3 ++
    (if 0 < stage1Audit.modelsFailed.length then
      [toString stage1Audit.modelsFailed.length ++ " model(s) failed to respond"]
    else [])
  let noConsensus := stage2Audit.rankingConsensus = ConsensusTier.none
  let flags5 := flags4 ++ (if noConsensus then ["No ranking consensus among reviewers"] else [])
  let recs2 := recs1 ++
    (if noConsensus then ["Council disagreed significantly - review individual analyses"] else [])
  let score4 := if noConsensus ∧ score3 = IntegrityScore.high then IntegrityScore.medium else score3
  let citationAnomalies := allAnomalies.filter fun a => a.type == .citationConsensus
  let flags6 := flags5 ++
    (if 0 < citationAnomalies.length then
      [toString citationAnomalies.length ++ " potential shared citation(s) - verify independently"]
    else [])
  let recs3 := recs2 ++
    (if 0 < citationAnomalies.length then
      ["Run independent citation check on shared authorities"]
    else [])
  let flags7 := flags6 ++
    (if 0 < stage3Audit.dissentSuppressed then
      [toString stage3Audit.dissentSuppressed ++ " dissenting view(s) may not be preserved"]
    else [])
  let recs4 := recs3 ++
    (if 0 < stage3Audit.dissentSuppressed then
      ["Review stage 1 analyses for important minority positions"]
    else [])
  { score := score4, flags := flags7, recommendations := recs4 }

/-! ## Stage-2 prompt construction (`runStage2`, anonymity)

The review payload is `stage1.analyses.map(a => ({label: a.label,
analysis: a._structured || a.content}))`, serialized with
`JSON.stringify(payload, null, 2)` into the fixed user-prompt template.
`JSON.stringify` is an external builtin; it is modelled for this record
shape (2-space indent, string escaping of backslash and double quote; a
structured payload serializes to its own JSON text `serialized`). -/

/-- The `analysis` value of one review payload item: the structured
payload when present (truthy object), else the raw content string. -/
inductive ReviewAnalysisValue
  | structuredValue (serialized : String)
  | contentValue (content : String)
deriving DecidableEq, Repr

/-- One item of the anonymized review payload: label and analysis only. -/
structure ReviewItem where
  label : String
  analysis : ReviewAnalysisValue
deriving DecidableEq, Repr

/-- Embeds `analysesForReview` in `runStage2`. -/
def analysesForReview (analyses : List IndividualAnalysis) : List ReviewItem :=
  analyses.map fun a =>
    { label := a.label
      analysis :=
        match a.structured with
        | some s => .structuredValue s.serialized
        | Option.none => .contentValue a.content }

/-- JSON string escaping (for the characters that matter to the embedded
strings: backslash and double quote). -/
def jsonEscapeChar (c : Char) : List Char :=
  if c = '\\' ∨ c = '"' then ['\\', c] else [c]

/-- Escape a string for embedding in a JSON string literal. -/
def jsonEscape (s : String) : String :=
  String.mk (s.data.flatMap jsonEscapeChar)

/-- Opening of one pretty-printed item, up to the label value. -/
def itemOpen : String := "  \x7b\n    \"label\": \""

/-- Between the label value and the analysis value. -/
def itemMid : String := "\",\n    \"analysis\": "

/-- Closing of one pretty-printed item. -/
def itemClose : String := "\n  \x7d"

/-- Serialization of one `analysis` value: a structured payload's own JSON
text, or a quoted escaped content string. -/
def valueText (v : ReviewAnalysisValue) : String :=
  match v with
  | .structuredValue s => s
  | .contentValue c => "\"" ++ jsonEscape c ++ "\""

/-- Serialization of one review item. -/
def itemText (it : ReviewItem) : String :=
  itemOpen ++ jsonEscape it.label ++ itemMid ++ valueText it.analysis ++ itemClose

/-- Comma-joined item list body. -/
def itemsBody : List ReviewItem → String
  | [] => ""
  | [it] => itemText it
  | it :: rest => itemText it ++ ",\n" ++ itemsBody rest

/-- Models `JSON.stringify(items, null, 2)` for the review payload array. -/
def serializeItems (items : List ReviewItem) : String :=
  if items.isEmpty then "[]" else "[\n" ++ itemsBody items ++ "\n]"

/-- The fixed text of the Stage-2 user prompt before the payload. -/
def stage2PromptHeader : String :=
  "Review these anonymized legal analyses. Do NOT try to guess which model produced each.\n\nANALYSES:\n"

/-- The fixed text of the Stage-2 user prompt after the payload. -/
def stage2PromptFooter : String :=
  "\n\nRespond with JSON containing:\n- evaluations: Object with analysis labels (A, B, etc.) as keys, each containing:\n  - legalAccuracy (1-5)\n  - issueIdentification (1-5)  \n  - riskCalibration (1-5) - neither catastrophizing nor dismissive\n  - practicalUtility (1-5)\n  - comment (optional string)\n- ranking: Array of analysis labels ordered best to worst (e.g., [\"B\", \"A\", \"C\"])\n- rankingRationale: Brief explanation for your ranking"

/-- The full Stage-2 user prompt string built by `runStage2`. -/
def stage2UserPrompt (analyses : List IndividualAnalysis) : String :=
  stage2PromptHeader ++ serializeItems (analysesForReview analyses) ++ stage2PromptFooter

/-- Rewrite the internal model id of an analysis (used to state that the
Stage-2 prompt does not depend on model identities). -/
def withModelId (f : Option String → Option String) (a : IndividualAnalysis) :
    IndividualAnalysis :=
  { a with modelId := f a.modelId }

/-- Decomposition of the Stage-2 user prompt into pieces whose boundaries
are all guarded by a double-quote character: constant template/punctuation
pieces alternate with escaped labels and analysis-value pieces.  Used to
prove that a quote-free string occurring nowhere inside any piece cannot
occur in the whole prompt. -/
def piecesTail : List ReviewItem → List String
  | [] => []
  | [it] => [jsonEscape it.label,
      itemMid ++ valueText it.analysis ++ itemClose ++ "\n]" ++ stage2PromptFooter]
  | it :: rest => jsonEscape it.label ::
      (itemMid ++ valueText it.analysis ++ itemClose ++ ",\n" ++ itemOpen) :: piecesTail rest

/-- The full piece list of the Stage-2 user prompt. -/
def promptPieces (analyses : List IndividualAnalysis) : List String :=
  match analysesForReview analyses with
  | [] => [stage2PromptHeader ++ "[]" ++ stage2PromptFooter]
  | items => (stage2PromptHeader ++ "[\n" ++ itemOpen) :: piecesTail items

/-- Adjacent piece boundaries are quote-guarded: at every boundary the
left piece ends with `"` or the right piece starts with `"`. -/
def quoteGuarded : List (List Char) → Prop
  | p :: q :: rest => (p.getLast? = some '"' ∨ q.head? = some '"') ∧ quoteGuarded (q :: rest)
  | _ => True

/-! ## Pipeline abbreviations (the `let`-bindings inside `deliberate`) -/

/-- The Stage-2 result `deliberate` computes (when Stage-1 quorum holds). -/
def pipelineStage2 (config : CouncilConfig) (stage1 : Stage1Result)
    (reviewOutcomes : List (Except StageError PeerReview)) : Stage2Result :=
  runStage2Model stage1 (assignLabels config.councilModels) reviewOutcomes

/-- The chairman selection `deliberate` computes. -/
def pipelineSelection (config : CouncilConfig) (stage1 : Stage1Result)
    (reviewOutcomes : List (Except StageError PeerReview)) : ChairmanSelectionResult :=
  selectChairman stage1 (pipelineStage2 config stage1 reviewOutcomes)
    config.chairmanOverrideModel

/-- The Stage-3 result `deliberate` computes. -/
def pipelineStage3 (config : CouncilConfig) (stage1 : Stage1Result)
    (reviewOutcomes : List (Except StageError PeerReview))
    (chairmanCall : String → ChairmanCallOutcome) : Stage3Result :=
  runStage3WithChairman config.councilModels.length
    (pipelineSelection config stage1 reviewOutcomes).model
    (chairmanCall (pipelineSelection config stage1 reviewOutcomes).model)

/-! ## Concrete example data (used by concrete-evaluation theorems and
hypothesis witnesses) -/

/-- A Stage-1 analysis with only the fields the examples need. -/
def mkAnalysis (label content : String) (mid : Option String) : IndividualAnalysis :=
  { label
    content
    confidence := .medium
    keyPoints := []
    modelId := mid
    structured := Option.none }

/-- A peer review with only the fields the examples need. -/
def mkReview (reviewer : String) (ranking : List String) : PeerReview :=
  { reviewerLabel := reviewer
    evaluations := []
    ranking
    rankingRationale := ""
    reviewerModelId := Option.none }

/-- Three Stage-1 analyses labelled A, B, C. -/
def exAnalyses : List IndividualAnalysis :=
  [mkAnalysis "A" "alpha analysis" (some "model-a"),
   mkAnalysis "B" "beta analysis" (some "model-b"),
   mkAnalysis "C" "gamma analysis" (some "model-c")]

/-- The three reviews of the spec's P4 example: rankings
`[A,B,C]`, `[B,A,C]`, `[A,B,C]`. -/
def exReviews : List PeerReview :=
  [mkReview "A" ["A", "B", "C"],
   mkReview "B" ["B", "A", "C"],
   mkReview "C" ["A", "B", "C"]]

/-- Extends `exAnalyses` with a fourth analysis whose label "D" no review ranks. -/
def exAnalysesD : List IndividualAnalysis :=
  exAnalyses ++ [mkAnalysis "D" "delta analysis" (some "model-d")]

/-- An example Stage-2 result built over `exReviews` (its aggregate
rankings are the sorted P4 values). -/
def exStage2 : Stage2Result :=
  { peerReviews := exReviews
    aggregateRankings := calculateAggregateRankings exReviews exAnalyses
    complete := true
    errors := [] }

/-- An example Stage-1 result over `exAnalyses`. -/
def exStage1 : Stage1Result :=
  { analyses := exAnalyses
    complete := true
    errors := [] }

/-- A council configuration with three models, quorum 2, no override. -/
def exConfig : CouncilConfig :=
  { councilModels := ["m1", "m2", "m3"]
    chairmanOverrideModel := Option.none
    fallbackChairmanModel := "m1"
    minimumSeats := 2
    concurrencyLimit := 2 }

/-- A Stage-1 result in which only one member responded (below quorum);
the third member's failure is recorded. -/
def exStage1Short : Stage1Result :=
  { analyses := [mkAnalysis "A" "solo analysis" (some "m1")]
    complete := false
    errors := [⟨1, some "m2", "timeout", true⟩, ⟨1, some "m3", "timeout", true⟩] }

/-- A Stage-1 result with exactly two responders (meets quorum 2). -/
def exStage1Two : Stage1Result :=
  { analyses := [mkAnalysis "A" "first analysis" (some "m1"),
                 mkAnalysis "B" "second analysis" (some "m2")]
    complete := false
    errors := [⟨1, some "m3", "timeout", true⟩] }

/-- Two successful Stage-2 review outcomes over labels A and B. -/
def exReviewOutcomes : List (Except StageError PeerReview) :=
  [Except.ok (mkReview "A" ["A", "B"]), Except.ok (mkReview "B" ["B", "A"])]

/-- A chairman call that always throws. -/
def exFailCall : String → ChairmanCallOutcome :=
  fun _ => .failure "chairman model call failed"

/-- A chairman call that always succeeds with an empty-shaped synthesis. -/
def exOkCall : String → ChairmanCallOutcome :=
  fun _ => .success (getEmptySynthesis 3)

/-- Dispatcher example: three task outcomes, the middle one a throw. -/
def exTasks : List (Except Unit Nat) :=
  [Except.ok 10, Except.error (), Except.ok 30]

/-- A schedule that completes `exTasks` with two workers. -/
def exSchedule : List Nat := [0, 1, 0, 0, 1, 1, 0, 0]

/-- Stage-1 audit of the end-to-end scenario: three models queried, two
responded (bare quorum), one failed; the stage emits the model-failure and
quorum-risk warnings. -/
def exS1Audit : Stage1Audit :=
  { modelsQueried := ["m1", "m2", "m3"]
    modelsResponded := ["m1", "m2"]
    modelsFailed := ["m3"]
    perModelMetrics := []
    anomalies :=
      [{ stage := .stage1
         severity := .warning
         type := .modelFailure
         description := "Model m3 failed to respond: timeout"
         affectedModels := some ["m3"]
         recommendation := some "Consider model availability or configuration" },
       { stage := .stage1
         severity := .warning
         type := .quorumRisk
         description := "Bare minimum quorum (2) - deliberation quality may be reduced"
         affectedModels := Option.none
         recommendation := some "Consider adding council members for more robust deliberation" }]
  }

/-- Stage-2 audit of the end-to-end scenario (strong consensus, clean). -/
def exS2Audit : Stage2Audit :=
  { reviewsCompleted := 2
    rankingConsensus := .strong
    agreementMatrix := []
    perAnalysisRankings := []
    outlierReviews := []
    citationsAcrossAnalyses := Option.none
    anomalies := [] }

/-- Stage-3 audit of the end-to-end scenario (clean). -/
def exS3Audit : Stage3Audit :=
  { chairmanModel := "m1"
    consensusReached := true
    dissentPreserved := 1
    dissentSuppressed := 0
    riskCalibration := ⟨false, false, "None noted"⟩
    citationsInSynthesis := 0
    sourceReliance := []
    anomalies := [] }

/-- Two analyses with two textually distinct structured assessments. -/
def exC9Analyses : List IndividualAnalysis :=
  [{ mkAnalysis "A" "first analysis" (some "m1") with
      structured := some ⟨some "liable", "\"serialized-a\""⟩ },
   { mkAnalysis "B" "second analysis" (some "m2") with
      structured := some ⟨some "not liable", "\"serialized-b\""⟩ }]

/-- Three analyses with three textually distinct structured assessments. -/
def exC9Analyses3 : List IndividualAnalysis :=
  exC9Analyses ++
    [{ mkAnalysis "C" "third analysis" (some "m3") with
        structured := some ⟨some "liable only in part", "\"serialized-c\""⟩ }]

/-- A synthesis preserving exactly one dissent entry. -/
def exC9Synthesis : Stage3Synthesis :=
  { getEmptySynthesis 3 with
      dissent := [⟨"not liable", "statute of limitations", 1, true⟩] }

/-- Analyses used by the anonymity example (one structured, one plain). -/
def exC6Analyses : List IndividualAnalysis :=
  [{ mkAnalysis "A" "the claim is likely time-barred" (some "openai/gpt-4o") with
      structured := some ⟨some "time-barred", "\x7b\"assessment\": \"time-barred\"\x7d"⟩ },
   mkAnalysis "B" "standing is doubtful" (some "anthropic/claude-3.5")]

/-- Invariant of the dispatcher's small-step execution: the cursor never
passes the task count, result and worker arrays keep their lengths, a
worker can only be awaiting an already-claimed in-range index, every
claimed index is either still in flight or already stored, and a worker
can only have terminated once the cursor reached the end. -/
def SchedInv {α : Type} (tasks : List (Except Unit α)) (workerCount : Nat)
    (s : SchedState α) : Prop :=
  s.cursor ≤ tasks.length ∧
  s.results.length = tasks.length ∧
  s.workers.length = workerCount ∧
  (∀ (w i : Nat), s.workers[w]? = some (WorkerState.running i) →
    i < s.cursor ∧ i < tasks.length) ∧
  (∀ i : Nat, i < s.cursor →
    (∃ w : Nat, s.workers[w]? = some (WorkerState.running i)) ∨
    s.results[i]? = some (some (tasks.getD i (Except.error ())))) ∧
  (WorkerState.finished ∈ s.workers → s.cursor = tasks.length)

/-! # Theorems -/

/-- C7: the process-integrity score is `low` exactly when a critical
anomaly exists among all collected anomalies; otherwise `medium` exactly
when there are at least 3 warnings, or exactly the bare-minimum quorum of
Stage-1 models responded, or the Stage-2 ranking consensus is `none`;
otherwise `high`.  In the end-to-end scenario (one of three models failed
Stage 1, no critical anomaly) the score is `medium` and the bare-quorum
flag is raised. -/
theorem calculateProcessIntegrity_spec :
    (∀ (s1a : Stage1Audit) (s2a : Stage2Audit) (s3a : Stage3Audit)
        (cross : List AuditAnomaly) (totalModels : Nat),
      (calculateProcessIntegrity s1a s2a s3a cross totalModels).score =
        (if 0 < ((s1a.anomalies ++ s2a.anomalies ++ s3a.anomalies ++ cross).filter
            fun a => a.severity == .critical).length then IntegrityScore.low
         else if 3 ≤ ((s1a.anomalies ++ s2a.anomalies ++ s3a.anomalies ++ cross).filter
              fun a => a.severity == .warning).length ∨
            s1a.modelsResponded.length = AUDIT_MINIMUM_QUORUM ∨
            s2a.rankingConsensus = ConsensusTier.none then IntegrityScore.medium
         else IntegrityScore.high))
    ∧ (calculateProcessIntegrity exS1Audit exS2Audit exS3Audit [] 3).score =
        IntegrityScore.medium
    ∧ "Bare minimum quorum achieved" ∈
        (calculateProcessIntegrity exS1Audit exS2Audit exS3Audit [] 3).flags := by
  refine ⟨?_, by decide, by decide⟩
  intro s1a s2a s3a cross totalModels
  simp only [calculateProcessIntegrity]
  split_ifs <;> simp_all <;> omega

/-- C8 counterexample: with three reviewers whose top picks are A, B, A
there are 2 unique top picks; the code's moderate threshold is
`Math.ceil(3/2) = 2`, so the code returns `moderate`, while the claim's
"at most half the reviewer count" (`2*2 ≤ 3` fails) would require
`weak`. -/
theorem rankingConsensus_counterexample :
    rankingConsensusOf exReviews = ConsensusTier.moderate ∧
    rankingConsensusSpec exReviews = ConsensusTier.weak := by
  exact ⟨by decide, by decide⟩

/-- C8 (amended): for every non-empty review set, the tier is `strong`
exactly when there is one unique top pick; `moderate` exactly when (not
strong and) the unique top picks are at most `⌈count/2⌉` (half rounded
up, not exact half); `weak` exactly when they exceed that threshold but
are fewer than the reviewer count; and `none` exactly when there are at
least two reviewers and every reviewer picked a different top label. -/
theorem rankingConsensus_amended :
    ∀ reviews : List PeerReview, reviews ≠ [] →
      (rankingConsensusOf reviews = ConsensusTier.strong ↔
        ((reviews.map fun r => r.ranking.head?).dedup).length = 1)
      ∧ (rankingConsensusOf reviews = ConsensusTier.moderate ↔
          (((reviews.map fun r => r.ranking.head?).dedup).length ≠ 1 ∧
            ((reviews.map fun r => r.ranking.head?).dedup).length ≤ (reviews.length + 1) / 2))
      ∧ (rankingConsensusOf reviews = ConsensusTier.weak ↔
          ((reviews.length + 1) / 2 < ((reviews.map fun r => r.ranking.head?).dedup).length ∧
            ((reviews.map fun r => r.ranking.head?).dedup).length < reviews.length))
      ∧ (rankingConsensusOf reviews = ConsensusTier.none ↔
          (2 ≤ reviews.length ∧ (reviews.map fun r => r.ranking.head?).Nodup)) := by
  intro reviews hne
  have hlen : 0 < reviews.length := List.length_pos.mpr hne
  have hdle : ((reviews.map fun r => r.ranking.head?).dedup).length ≤ reviews.length := by
    calc ((reviews.map fun r => r.ranking.head?).dedup).length
        ≤ (reviews.map fun r => r.ranking.head?).length :=
          (List.dedup_sublist _).length_le
      _ = reviews.length := List.length_map _ _
  have hnodup_iff : ((reviews.map fun r => r.ranking.head?).dedup).length =
      (reviews.map fun r => r.ranking.head?).length ↔
      (reviews.map fun r => r.ranking.head?).Nodup := by
    constructor
    · intro h
      have hsub := List.dedup_sublist (reviews.map fun r => r.ranking.head?)
      have := hsub.eq_of_length h
      rw [← this]
      exact List.nodup_dedup _
    · intro h
      rw [List.dedup_eq_self.mpr h]
  rw [List.length_map] at hnodup_iff
  have hndl : ((reviews.map fun r => r.ranking.head?).dedup).length = reviews.length ↔
      (reviews.map fun r => r.ranking.head?).Nodup := hnodup_iff
  have hres : rankingConsensusOf reviews =
      (if ((reviews.map fun r => r.ranking.head?).dedup).length = 1 then ConsensusTier.strong
       else if ((reviews.map fun r => r.ranking.head?).dedup).length ≤ (reviews.length + 1) / 2
       then ConsensusTier.moderate
       else if ((reviews.map fun r => r.ranking.head?).dedup).length < reviews.length
       then ConsensusTier.weak
       else ConsensusTier.none) := rfl
  rw [hres]
  split_ifs with h1 h2 h3
  · refine ⟨by simp [h1], by simp [h1], ?_, ?_⟩
    · constructor
      · intro h
        exact absurd h (by simp)
      · intro h
        omega
    · constructor
      · intro h
        exact absurd h (by simp)
      · intro h
        have := hndl.mpr h.2
        omega
  · refine ⟨by simp [h1], by simp [h1, h2], ?_, ?_⟩
    · constructor
      · intro h
        exact absurd h (by simp)
      · intro h
        omega
    · constructor
      · intro h
        exact absurd h (by simp)
      · intro h
        have := hndl.mpr h.2
        omega
  · refine ⟨by simp [h1], by simp [h1, h2], ⟨fun _ => ⟨by omega, h3⟩, fun _ => rfl⟩, ?_⟩
    constructor
    · intro h
      exact absurd h (by simp)
    · intro h
      have := hndl.mpr h.2
      omega
  · refine ⟨by simp [h1], by simp [h1, h2], by simp [h2, h3], ?_⟩
    have hun : ((reviews.map fun r => r.ranking.head?).dedup).length = reviews.length := by
      omega
    constructor
    · intro _
      exact ⟨by omega, hndl.mp hun⟩
    · intro _
      rfl

/-- C8 amended witness: the moderate characterization instantiated at the
concrete three-review example. -/
theorem rankingConsensus_amended_witness :
    rankingConsensusOf exReviews = ConsensusTier.moderate ↔
      (((exReviews.map fun r => r.ranking.head?).dedup).length ≠ 1 ∧
        ((exReviews.map fun r => r.ranking.head?).dedup).length ≤ (exReviews.length + 1) / 2) :=
  (rankingConsensus_amended exReviews (by decide)).2.1

/-- C9 counterexample: with two textually distinct Stage-1 assessments and
one preserved dissent entry, the code computes
`dissentSuppressed = max(0, 2 - 1 - 1) = 0` and emits no anomaly, while
the claim's formula (distinct positions minus preserved entries, without
the `- 1`) would give 1 and require the flag. -/
theorem dissentSuppressed_counterexample :
    dissentSuppressedCount exC9Analyses exC9Synthesis = 0 ∧
    dissentSuppressedSpec exC9Analyses exC9Synthesis = 1 ∧
    dissentSuppressionAnomalies exC9Analyses exC9Synthesis = [] := by
  exact ⟨by decide, by decide, by decide⟩

/-- C9 (amended): `dissentSuppressed` equals the count of materially
distinct Stage-1 positions minus one minus the preserved dissent entries,
floored at 0; a dissent-suppression warning is emitted exactly when the
value is positive; hence three textually distinct assessments collapsed
into fewer than 2 dissent entries always produce the warning. -/
theorem dissentSuppressed_amended :
    (∀ (analyses : List IndividualAnalysis) (synthesis : Stage3Synthesis),
      synthesis.dissent.length + 1 ≤ uniquePositionsCount analyses →
      dissentSuppressedCount analyses synthesis =
        uniquePositionsCount analyses - 1 - synthesis.dissent.length)
    ∧ (∀ (analyses : List IndividualAnalysis) (synthesis : Stage3Synthesis),
        dissentSuppressionAnomalies analyses synthesis ≠ [] ↔
          0 < dissentSuppressedCount analyses synthesis)
    ∧ (∀ (analyses : List IndividualAnalysis) (synthesis : Stage3Synthesis),
        uniquePositionsCount analyses = 3 →
        synthesis.dissent.length < 2 →
        ∃ an ∈ dissentSuppressionAnomalies analyses synthesis,
          an.type = AnomalyType.dissentSuppression ∧ an.severity = Severity.warning) := by
  refine ⟨?_, ?_, ?_⟩
  · intro analyses synthesis h
    simp only [dissentSuppressedCount]
    omega
  · intro analyses synthesis
    simp only [dissentSuppressionAnomalies]
    split_ifs with h
    · simpa using h
    · simpa using h
  · intro analyses synthesis hu hd
    have hpos : 0 < dissentSuppressedCount analyses synthesis := by
      simp only [dissentSuppressedCount, hu]
      omega
    simp only [dissentSuppressionAnomalies, if_pos hpos]
    exact ⟨_, List.mem_singleton.mpr rfl, rfl, rfl⟩

/-- C9 amended witness: three distinct assessments, one preserved dissent
entry, so the count is `3 - 1 - 1 = 1`. -/
theorem dissentSuppressed_amended_witness :
    dissentSuppressedCount exC9Analyses3 exC9Synthesis =
      uniquePositionsCount exC9Analyses3 - 1 - exC9Synthesis.dissent.length :=
  dissentSuppressed_amended.1 exC9Analyses3 exC9Synthesis (by decide)

/-- C3: `selectChairman` obeys the precedence: a (truthy) override that
produced a Stage-1 analysis is returned with method `user-specified`;
an override that did not participate falls through to algorithmic
selection without error (likewise an absent or empty override); with
non-empty aggregate rankings whose top label resolves to an analysis with
a model id, the algorithmic branch returns that model, a rationale
containing the numeric average rank, and the top-3 alternatives (and the
top entry has the lowest average rank whenever the rankings are sorted);
with empty rankings the algorithmic branch is the fallback, which returns
the first responder's model with method `fallback`. -/
theorem selectChairman_precedence :
    (∀ (s1 : Stage1Result) (s2 : Stage2Result) (ov : String), ov ≠ "" →
      (s1.analyses.any fun a => a.modelId == some ov) = true →
      selectChairman s1 s2 (some ov) =
        { model := ov
          method := .userSpecified
          rationale := "User specified chairman"
          alternativesConsidered := Option.none })
    ∧ (∀ (s1 : Stage1Result) (s2 : Stage2Result) (ov : String),
        (s1.analyses.any fun a => a.modelId == some ov) = false →
        selectChairman s1 s2 (some ov) = algorithmicSelection s1 s2)
    ∧ (∀ (s1 : Stage1Result) (s2 : Stage2Result),
        selectChairman s1 s2 (some "") = algorithmicSelection s1 s2)
    ∧ (∀ (s1 : Stage1Result) (s2 : Stage2Result),
        selectChairman s1 s2 Option.none = algorithmicSelection s1 s2)
    ∧ (∀ (s1 : Stage1Result) (s2 : Stage2Result) (topRanked : AggregateRanking)
          (rest : List AggregateRanking) (topAnalysis : IndividualAnalysis) (mid : String),
        s2.aggregateRankings = topRanked :: rest →
        (s1.analyses.find? fun a => a.label = topRanked.label) = some topAnalysis →
        topAnalysis.modelId = some mid →
        mid ≠ "" →
        algorithmicSelection s1 s2 =
          { model := mid
            method := .algorithmic
            rationale := "Highest peer-ranked analysis (avg rank " ++
              ratToFixed2 topRanked.averageRank ++ ")"
            alternativesConsidered := some ((s2.aggregateRankings.take 3).map fun r =>
              { model := jsStringOr ((s1.analyses.find? fun a => a.label = r.label).bind
                  fun a => a.modelId) r.label
                averageRank := r.averageRank }) }
          ∧ (List.Sorted rankLE s2.aggregateRankings →
              ∀ r ∈ s2.aggregateRankings, topRanked.averageRank ≤ r.averageRank))
    ∧ (∀ (s1 : Stage1Result) (s2 : Stage2Result),
        s2.aggregateRankings = [] → algorithmicSelection s1 s2 = fallbackSelection s1)
    ∧ (∀ (s1 : Stage1Result) (a : IndividualAnalysis) (m : String),
        s1.analyses.head? = some a → a.modelId = some m → m ≠ "" →
        fallbackSelection s1 =
          { model := m
            method := .fallback
            rationale := "Fallback to first responding model (ranking data unavailable)"
            alternativesConsidered := Option.none }) := by
  refine ⟨?_, ?_, ?_, ?_, ?_, ?_, ?_⟩
  · intro s1 s2 ov hne hany
    simp [selectChairman, hne, hany]
  · intro s1 s2 ov hany
    by_cases hov : ov = ""
    · simp [selectChairman, hov]
    · simp [selectChairman, hov, hany]
  · intro s1 s2
    simp [selectChairman]
  · intro s1 s2
    simp [selectChairman]
  · intro s1 s2 topRanked rest topAnalysis mid hrk hfind hmid hne
    constructor
    · simp [algorithmicSelection, hrk, hfind, hmid, hne]
    · intro hsorted r hr
      rw [hrk] at hsorted hr
      rcases List.mem_cons.mp hr with h | h
      · exact h ▸ le_refl _
      · exact (List.sorted_cons.mp hsorted).1 r h
  · intro s1 s2 hrk
    simp [algorithmicSelection, hrk]
  · intro s1 a m hhead hmid hne
    simp [fallbackSelection, hhead, hmid, jsStringOr, hne]

/-- C3 witness: the override branch at a concrete council (override
`model-b` participated), and the empty-rankings fallback at a concrete
council whose first responder is `model-a`. -/
theorem selectChairman_precedence_witness :
    selectChairman exStage1 exStage2 (some "model-b") =
      { model := "model-b"
        method := .userSpecified
        rationale := "User specified chairman"
        alternativesConsidered := Option.none } ∧
    fallbackSelection exStage1 =
      { model := "model-a"
        method := .fallback
        rationale := "Fallback to first responding model (ranking data unavailable)"
        alternativesConsidered := Option.none } :=
  ⟨selectChairman_precedence.1 exStage1 exStage2 "model-b" (by decide) (by decide),
   selectChairman_precedence.2.2.2.2.2.2 exStage1 (mkAnalysis "A" "alpha analysis" (some "model-a"))
     "model-a" (by decide) (by decide) (by decide)⟩

/-- C10: `selectChairman` is total on degenerate input: when the override
is absent, empty, or did not participate and the aggregate rankings are
empty, it returns the fallback selection (the first responder's model,
method `fallback`); and when the Stage-1 analyses list is itself empty it
returns the sentinel model `"unknown"` with method `fallback` for every
ranking list and override, rather than raising an error. -/
theorem selectChairman_total :
    (∀ (s1 : Stage1Result) (s2 : Stage2Result) (userOverride : Option String),
      (∀ o, userOverride = some o → o ≠ "" →
        (s1.analyses.any fun a => a.modelId == some o) = false) →
      s2.aggregateRankings = [] →
      selectChairman s1 s2 userOverride = fallbackSelection s1
      ∧ (selectChairman s1 s2 userOverride).method = .fallback
      ∧ (∀ (a : IndividualAnalysis) (m : String),
          s1.analyses.head? = some a → a.modelId = some m → m ≠ "" →
          (selectChairman s1 s2 userOverride).model = m))
    ∧ (∀ (s2 : Stage2Result) (userOverride : Option String) (c : Bool)
          (e : List StageError),
        selectChairman ⟨[], c, e⟩ s2 userOverride =
          { model := "unknown"
            method := .fallback
            rationale := "Fallback to first responding model (ranking data unavailable)"
            alternativesConsidered := Option.none }) := by
  constructor
  · intro s1 s2 userOverride hov hrk
    have hsel : selectChairman s1 s2 userOverride = fallbackSelection s1 := by
      have halgo : algorithmicSelection s1 s2 = fallbackSelection s1 := by
        simp [algorithmicSelection, hrk]
      match userOverride with
      | Option.none => simpa [selectChairman] using halgo
      | some o =>
        by_cases ho : o = ""
        · simpa [selectChairman, ho] using halgo
        · have := hov o rfl ho
          simpa [selectChairman, ho, this] using halgo
    refine ⟨hsel, by rw [hsel]; rfl, ?_⟩
    intro a m hhead hmid hne
    rw [hsel]
    simp [fallbackSelection, hhead, hmid, jsStringOr, hne]
  · intro s2 userOverride c e
    have halgo : algorithmicSelection ⟨[], c, e⟩ s2 =
        { model := "unknown"
          method := .fallback
          rationale := "Fallback to first responding model (ranking data unavailable)"
          alternativesConsidered := Option.none } := by
      match hrk : s2.aggregateRankings with
      | [] => simp [algorithmicSelection, hrk, fallbackSelection, jsStringOr]
      | topRanked :: rest =>
          simp [algorithmicSelection, hrk, fallbackSelection, jsStringOr]
    match userOverride with
    | Option.none => simpa [selectChairman] using halgo
    | some o =>
      by_cases ho : o = ""
      · simpa [selectChairman, ho] using halgo
      · simpa [selectChairman, ho] using halgo

/-- C10 witness: degenerate call with empty rankings on the concrete
council, and the fully empty council. -/
theorem selectChairman_total_witness :
    selectChairman exStage1 ⟨[], [], false, []⟩ Option.none = fallbackSelection exStage1 ∧
    selectChairman ⟨[], false, []⟩ exStage2 (some "ghost-model") =
      { model := "unknown"
        method := .fallback
        rationale := "Fallback to first responding model (ranking data unavailable)"
        alternativesConsidered := Option.none } :=
  ⟨(selectChairman_total.1 exStage1 ⟨[], [], false, []⟩ Option.none
      (fun o h _ => by cases h) rfl).1,
   selectChairman_total.2 exStage2 (some "ghost-model") false []⟩

/-- C1: whenever the number of successful Stage-1 analyses (resp. the
number of completed peer reviews after Stage 2) is below the configured
minimum number of seats, `deliberate` aborts with a `CouncilQuorumError`
carrying the actual count, the required count and the full list of
underlying per-member stage errors; in the Stage-1 case the result does
not depend on the Stage-2 or Stage-3 call outcomes at all (no Stage-2
dispatch occurs). -/
theorem deliberate_quorum_gate :
    ∀ (config : CouncilConfig) (queryText : String) (s1 : Stage1Result)
      (ro : List (Except StageError PeerReview)) (cc : String → ChairmanCallOutcome),
      (s1.analyses.length < minimumQuorumOf config →
        deliberate config Option.none queryText s1 ro cc =
          Except.error (DeliberationAbort.quorum
            { message := stage1QuorumMessage s1.analyses.length
                (assignLabels config.councilModels).length (minimumQuorumOf config)
              actualCount := s1.analyses.length
              requiredCount := minimumQuorumOf config
              underlyingErrors := s1.errors })
        ∧ ∀ (ro₂ : List (Except StageError PeerReview)) (cc₂ : String → ChairmanCallOutcome),
            deliberate config Option.none queryText s1 ro cc =
              deliberate config Option.none queryText s1 ro₂ cc₂)
      ∧ (minimumQuorumOf config ≤ s1.analyses.length →
          (pipelineStage2 config s1 ro).peerReviews.length < minimumQuorumOf config →
          deliberate config Option.none queryText s1 ro cc =
            Except.error (DeliberationAbort.quorum
              { message := stage2QuorumMessage (pipelineStage2 config s1 ro).peerReviews.length
                  (minimumQuorumOf config)
                actualCount := (pipelineStage2 config s1 ro).peerReviews.length
                requiredCount := minimumQuorumOf config
                underlyingErrors := (pipelineStage2 config s1 ro).errors })) := by
  intro config queryText s1 ro cc
  constructor
  · intro hlow
    constructor
    · simp only [deliberate, if_pos hlow]
    · intro ro₂ cc₂
      simp only [deliberate, if_pos hlow]
  · intro hok hlow2
    have hnot : ¬ s1.analyses.length < minimumQuorumOf config := not_lt.mpr hok
    simp only [deliberate, if_neg hnot, pipelineStage2] at hlow2 ⊢
    simp only [if_pos hlow2]

/-- C1 witness: one successful analysis against quorum 2 aborts with the
quorum error carrying count 1, requirement 2 and the two member errors. -/
theorem deliberate_quorum_gate_witness :
    deliberate exConfig Option.none "q" exStage1Short [] exFailCall =
      Except.error (DeliberationAbort.quorum
        { message := stage1QuorumMessage exStage1Short.analyses.length
            (assignLabels exConfig.councilModels).length (minimumQuorumOf exConfig)
          actualCount := exStage1Short.analyses.length
          requiredCount := minimumQuorumOf exConfig
          underlyingErrors := exStage1Short.errors }) :=
  ((deliberate_quorum_gate exConfig "q" exStage1Short [] exFailCall).1 (by decide)).1

/-- C5: if both quorum gates pass and the chairman model call throws
during Stage 3, `deliberate` does not throw: it returns a deliberation
whose Stage-3 result has `complete := false`, whose synthesis is the
explicitly empty synthesis (consensus not reached; empty issues, dissent,
weaknesses, open questions and action items), and whose errors consist of
a Stage-3 entry with `recoverable := false`. -/
theorem deliberate_stage3_failure_nonaborting :
    ∀ (config : CouncilConfig) (queryText msg : String) (s1 : Stage1Result)
      (ro : List (Except StageError PeerReview)) (cc : String → ChairmanCallOutcome),
      minimumQuorumOf config ≤ s1.analyses.length →
      minimumQuorumOf config ≤ (pipelineStage2 config s1 ro).peerReviews.length →
      cc (pipelineSelection config s1 ro).model = ChairmanCallOutcome.failure msg →
      deliberate config Option.none queryText s1 ro cc =
        Except.ok (constructDeliberation queryText s1 (pipelineStage2 config s1 ro)
          (pipelineStage3 config s1 ro cc) (assignLabels config.councilModels))
      ∧ (pipelineStage3 config s1 ro cc).complete = false
      ∧ (pipelineStage3 config s1 ro cc).synthesis =
          getEmptySynthesis config.councilModels.length
      ∧ (pipelineStage3 config s1 ro cc).errors =
          [⟨3, some (pipelineSelection config s1 ro).model, msg, false⟩]
      ∧ (pipelineStage3 config s1 ro cc).synthesis.consensus.reached = false
      ∧ (pipelineStage3 config s1 ro cc).synthesis.issues = []
      ∧ (pipelineStage3 config s1 ro cc).synthesis.dissent = []
      ∧ (pipelineStage3 config s1 ro cc).synthesis.weaknesses = []
      ∧ (pipelineStage3 config s1 ro cc).synthesis.openQuestions = []
      ∧ (pipelineStage3 config s1 ro cc).synthesis.actionItems = []
      ∧ ∀ e ∈ (pipelineStage3 config s1 ro cc).errors,
          e.stage = 3 ∧ e.recoverable = false := by
  intro config queryText msg s1 ro cc h1 h2 hcall
  have hnot1 : ¬ s1.analyses.length < minimumQuorumOf config := not_lt.mpr h1
  have hnot2 : ¬ (pipelineStage2 config s1 ro).peerReviews.length < minimumQuorumOf config :=
    not_lt.mpr h2
  have hstage3 : pipelineStage3 config s1 ro cc =
      { synthesis := getEmptySynthesis config.councilModels.length
        chairmanModel := (pipelineSelection config s1 ro).model
        complete := false
        errors := [⟨3, some (pipelineSelection config s1 ro).model, msg, false⟩] } := by
    simp only [pipelineStage3, hcall, runStage3WithChairman]
  refine ⟨?_, ?_, ?_, ?_, ?_, ?_, ?_, ?_, ?_, ?_, ?_⟩
  · simp only [deliberate, if_neg hnot1, pipelineStage2] at hnot2 ⊢
    simp only [if_neg hnot2]
    rfl
  · rw [hstage3]
  · rw [hstage3]
  · rw [hstage3]
  · rw [hstage3]
    rfl
  · rw [hstage3]
    rfl
  · rw [hstage3]
    rfl
  · rw [hstage3]
    rfl
  · rw [hstage3]
    rfl
  · rw [hstage3]
    rfl
  · rw [hstage3]
    intro e he
    rcases List.mem_singleton.mp he with rfl
    exact ⟨rfl, rfl⟩

/-- C5 witness: two analyses, two reviews, quorum 2, chairman call throws;
the deliberation still returns a result whose Stage-3 slot is the
degraded empty synthesis with a non-recoverable error. -/
theorem deliberate_stage3_failure_witness :
    deliberate exConfig Option.none "q" exStage1Two exReviewOutcomes exFailCall =
      Except.ok (constructDeliberation "q" exStage1Two
        (pipelineStage2 exConfig exStage1Two exReviewOutcomes)
        (pipelineStage3 exConfig exStage1Two exReviewOutcomes exFailCall)
        (assignLabels exConfig.councilModels)) ∧
    (pipelineStage3 exConfig exStage1Two exReviewOutcomes exFailCall).complete = false ∧
    (pipelineStage3 exConfig exStage1Two exReviewOutcomes exFailCall).synthesis =
      getEmptySynthesis exConfig.councilModels.length := by
  have h := deliberate_stage3_failure_nonaborting exConfig "q" "chairman model call failed"
    exStage1Two exReviewOutcomes exFailCall (by decide) (by decide) rfl
  exact ⟨h.1, h.2.1, h.2.2.1⟩

/-- Characterization of one aggregate-ranking entry. -/
theorem aggregateEntry_eq_some_iff (reviews : List PeerReview) (n : Nat) (label : String)
    (r : AggregateRanking) :
    aggregateEntry reviews n label = some r ↔
      positionsOf reviews label ≠ [] ∧
      r = ⟨label, listMean (positionsOf reviews label),
        max 0 (if 0 < ((n : Rat) - 1) ^ 2
          then 1 - listPopVariance (positionsOf reviews label) / ((n : Rat) - 1) ^ 2
          else 1)⟩ := by
  by_cases h : (positionsOf reviews label).isEmpty = true
  · have hnil : positionsOf reviews label = [] := List.isEmpty_iff.mp h
    simp [aggregateEntry, h, hnil]
  · have hne : positionsOf reviews label ≠ [] := by
      intro hcontra
      rw [hcontra] at h
      exact h rfl
    simp only [aggregateEntry, if_neg h]
    simp [hne, eq_comm]

/-- C2: the aggregate rankings are sorted ascending by average rank; an
entry exists for exactly the analyses whose label appears in at least one
review's ranking (labels ranked by nobody are omitted without error), and
every entry carries the mean of the label's 1-indexed positions over
exactly the reviews containing it and the consistency
`1 - popVariance/(N-1)^2` (with the `(N-1)^2 = 0` guard) clamped below at
0, `N` being the number of Stage-1 analyses; on the three-reviewer P4
example the result is A: 4/3, B: 5/3, C: 3 with consistencies 17/18,
17/18 and 1. -/
theorem calculateAggregateRankings_spec :
    (∀ (reviews : List PeerReview) (analyses : List IndividualAnalysis),
      List.Sorted rankLE (calculateAggregateRankings reviews analyses))
    ∧ (∀ (reviews : List PeerReview) (analyses : List IndividualAnalysis)
        (r : AggregateRanking),
        r ∈ calculateAggregateRankings reviews analyses ↔
          ∃ a ∈ analyses, positionsOf reviews a.label ≠ [] ∧
            r = ⟨a.label, listMean (positionsOf reviews a.label),
              max 0 (if 0 < ((analyses.length : Rat) - 1) ^ 2
                then 1 - listPopVariance (positionsOf reviews a.label) /
                  ((analyses.length : Rat) - 1) ^ 2
                else 1)⟩)
    ∧ calculateAggregateRankings exReviews exAnalyses =
        [⟨"A", 4/3, 17/18⟩, ⟨"B", 5/3, 17/18⟩, ⟨"C", 3, 1⟩] := by
  refine ⟨?_, ?_, ?_⟩
  · intro reviews analyses
    exact List.sorted_insertionSort rankLE _
  · intro reviews analyses r
    rw [calculateAggregateRankings,
      (List.perm_insertionSort rankLE _).mem_iff, List.mem_filterMap]
    constructor
    · rintro ⟨a, ha, he⟩
      rcases (aggregateEntry_eq_some_iff reviews analyses.length a.label r).mp he with ⟨h1, h2⟩
      exact ⟨a, ha, h1, h2⟩
    · rintro ⟨a, ha, h1, h2⟩
      exact ⟨a, ha, (aggregateEntry_eq_some_iff reviews analyses.length a.label r).mpr ⟨h1, h2⟩⟩
  · have hA : aggregateEntry exReviews 3 "A" = some ⟨"A", 4/3, 17/18⟩ := by
      have hpos : positionsOf exReviews "A" = [1, 2, 1] := by decide
      rw [aggregateEntry, hpos]
      norm_num [listMean, listPopVariance]
    have hB : aggregateEntry exReviews 3 "B" = some ⟨"B", 5/3, 17/18⟩ := by
      have hpos : positionsOf exReviews "B" = [2, 1, 2] := by decide
      rw [aggregateEntry, hpos]
      norm_num [listMean, listPopVariance]
    have hC : aggregateEntry exReviews 3 "C" = some ⟨"C", 3, 1⟩ := by
      have hpos : positionsOf exReviews "C" = [3, 3, 3] := by decide
      rw [aggregateEntry, hpos]
      norm_num [listMean, listPopVariance]
    have hfm : List.filterMap
        (fun analysis => aggregateEntry exReviews 3 analysis.label)
        exAnalyses = [⟨"A", 4/3, 17/18⟩, ⟨"B", 5/3, 17/18⟩, ⟨"C", 3, 1⟩] := by
      simp only [exAnalyses, mkAnalysis, List.filterMap_cons, List.filterMap_nil,
        hA, hB, hC]
    have hlen3 : exAnalyses.length = 3 := rfl
    rw [calculateAggregateRankings, hlen3, hfm]
    simp only [List.insertionSort, List.orderedInsert]
    norm_num [rankLE]

/-- Elements reached through `getElem?` are members. -/
theorem mem_of_getElem?_eq_some {α : Type} {l : List α} {n : Nat} {a : α}
    (h : l[n]? = some a) : a ∈ l := by
  rcases List.getElem?_eq_some.mp h with ⟨hlt, rfl⟩
  exact List.getElem_mem hlt

/-- The dispatcher invariant holds initially. -/
theorem schedInv_init (α : Type) (tasks : List (Except Unit α)) (limit : Nat) :
    SchedInv tasks (min limit tasks.length) (schedInit α tasks.length limit) := by
  dsimp only [SchedInv, schedInit]
  refine ⟨Nat.zero_le _, List.length_replicate _ _, List.length_replicate _ _, ?_, ?_, ?_⟩
  · intro w i h
    rw [List.getElem?_replicate] at h
    split at h
    · cases h
    · cases h
  · intro i h
    cases h
  · intro h
    have := List.eq_of_mem_replicate h
    cases this

/-- One scheduler step preserves the dispatcher invariant. -/
theorem schedInv_step {α : Type} (tasks : List (Except Unit α)) (workerCount : Nat)
    (s : SchedState α) (w : Nat) (hinv : SchedInv tasks workerCount s) :
    SchedInv tasks workerCount (schedStep tasks s w) := by
  obtain ⟨hc, hr, hw, hrun, hcov, hfin⟩ := hinv
  cases hws : s.workers[w]? with
  | none =>
      simpa [schedStep, hws] using ⟨hc, hr, hw, hrun, hcov, hfin⟩
  | some ws =>
      have hwlt : w < s.workers.length := (List.getElem?_eq_some.mp hws).1
      cases ws with
      | finished =>
          simpa [schedStep, hws] using ⟨hc, hr, hw, hrun, hcov, hfin⟩
      | idle =>
          simp only [schedStep, hws]
          split_ifs with hcur
          · dsimp only [SchedInv]
            refine ⟨by omega, hr, by rw [List.length_set]; exact hw, ?_, ?_, ?_⟩
            · intro w' i h
              rw [List.getElem?_set] at h
              by_cases hww : w = w'
              · rw [if_pos hww, if_pos (hww ▸ hwlt)] at h
                cases h
                exact ⟨by omega, hcur⟩
              · rw [if_neg hww] at h
                have := hrun w' i h
                exact ⟨by omega, this.2⟩
            · intro i hi
              by_cases hic : i = s.cursor
              · left
                refine ⟨w, ?_⟩
                rw [List.getElem?_set, if_pos rfl, if_pos hwlt, hic]
              · have hilt : i < s.cursor := by omega
                rcases hcov i hilt with ⟨w'', hw''⟩ | hres
                · left
                  refine ⟨w'', ?_⟩
                  have hne : w ≠ w'' := by
                    intro hcontra
                    rw [← hcontra, hws] at hw''
                    cases hw''
                  rw [List.getElem?_set, if_neg hne]
                  exact hw''
                · right
                  exact hres
            · intro hm
              rcases List.mem_or_eq_of_mem_set hm with hmem | heq
              · have := hfin hmem
                omega
              · cases heq
          · dsimp only [SchedInv]
            refine ⟨hc, hr, by rw [List.length_set]; exact hw, ?_, ?_, ?_⟩
            · intro w' i h
              rw [List.getElem?_set] at h
              by_cases hww : w = w'
              · rw [if_pos hww, if_pos (hww ▸ hwlt)] at h
                cases h
              · rw [if_neg hww] at h
                exact hrun w' i h
            · intro i hi
              rcases hcov i hi with ⟨w'', hw''⟩ | hres
              · left
                refine ⟨w'', ?_⟩
                have hne : w ≠ w'' := by
                  intro hcontra
                  rw [← hcontra, hws] at hw''
                  cases hw''
                rw [List.getElem?_set, if_neg hne]
                exact hw''
              · right
                exact hres
            · intro _
              omega
      | running i =>
          have hi := hrun w i hws
          simp only [schedStep, hws]
          dsimp only [SchedInv]
          refine ⟨hc, by rw [List.length_set]; exact hr, by rw [List.length_set]; exact hw,
            ?_, ?_, ?_⟩
          · intro w' j h
            rw [List.getElem?_set] at h
            by_cases hww : w = w'
            · rw [if_pos hww, if_pos (hww ▸ hwlt)] at h
              cases h
            · rw [if_neg hww] at h
              exact hrun w' j h
          · intro j hj
            by_cases hij : i = j
            · right
              rw [List.getElem?_set, if_pos hij, if_pos (by omega : i < s.results.length), hij]
            · rcases hcov j hj with ⟨w'', hw''⟩ | hres
              · left
                refine ⟨w'', ?_⟩
                have hne : w ≠ w'' := by
                  intro hcontra
                  rw [← hcontra, hws] at hw''
                  cases hw''
                  exact hij rfl
                rw [List.getElem?_set, if_neg hne]
                exact hw''
              · right
                rw [List.getElem?_set, if_neg hij]
                exact hres
          · intro hm
            rcases List.mem_or_eq_of_mem_set hm with hmem | heq
            · exact hfin hmem
            · cases heq

/-- Any schedule preserves the dispatcher invariant. -/
theorem schedInv_run {α : Type} (tasks : List (Except Unit α)) (workerCount : Nat)
    (schedule : List Nat) :
    ∀ s : SchedState α, SchedInv tasks workerCount s →
      SchedInv tasks workerCount (schedRun tasks s schedule) := by
  induction schedule with
  | nil => intro s hinv; exact hinv
  | cons w rest ih =>
      intro s hinv
      rw [schedRun, List.foldl_cons]
      exact ih _ (schedInv_step tasks workerCount s w hinv)

/-- C4: for every task list, every concurrency limit `L ≥ 1` and every
schedule under which the dispatcher has resolved, the result array has one
slot per task and slot `i` holds exactly task `i`'s own outcome - the
resolved value when it resolved, the null sentinel when it threw - no
matter in which order the workers interleaved; in particular one task's
throw never prevents another task from running and populating its slot,
and the dispatcher itself never rejects (its step and run functions are
total). -/
theorem withConcurrencyLimit_spec :
    ∀ (α : Type) (tasks : List (Except Unit α)) (limit : Nat) (schedule : List Nat),
      1 ≤ limit →
      SchedDone (schedRun tasks (schedInit α tasks.length limit) schedule) →
      (observedResults (schedRun tasks (schedInit α tasks.length limit) schedule)).length =
        tasks.length ∧
      ∀ (i : Nat), i < tasks.length →
        (schedRun tasks (schedInit α tasks.length limit) schedule).results[i]? =
          some (some (tasks.getD i (Except.error ()))) ∧
        (observedResults (schedRun tasks (schedInit α tasks.length limit) schedule))[i]? =
          some (outcomeValue (tasks.getD i (Except.error ()))) := by
  intro α tasks limit schedule hlim hdone
  obtain ⟨hc, hr, hw, hrun, hcov, hfin⟩ :=
    schedInv_run tasks (min limit tasks.length) schedule _ (schedInv_init α tasks limit)
  constructor
  · rw [observedResults, List.length_map, hr]
  · intro i hi
    have hwpos : 0 < min limit tasks.length := by omega
    have hne : (schedRun tasks (schedInit α tasks.length limit) schedule).workers ≠ [] := by
      intro hnil
      rw [hnil] at hw
      simp at hw
      omega
    obtain ⟨ws, hws⟩ := List.exists_mem_of_ne_nil _ hne
    have hfinished := hdone ws hws
    have hcursor := hfin (hfinished ▸ hws)
    have hres : (schedRun tasks (schedInit α tasks.length limit) schedule).results[i]? =
        some (some (tasks.getD i (Except.error ()))) := by
      rcases hcov i (by omega) with ⟨w'', hw''⟩ | hres
      · have hmem := mem_of_getElem?_eq_some hw''
        have := hdone _ hmem
        cases this
      · exact hres
    refine ⟨hres, ?_⟩
    rw [observedResults, List.getElem?_map, hres]
    cases tasks.getD i (Except.error ()) with
    | ok v => rfl
    | error e => rfl

/-- C4 witness: three tasks (the middle one throws), limit 2, and a
concrete completing schedule: every slot holds its own task's outcome. -/
theorem withConcurrencyLimit_spec_witness :
    (observedResults (schedRun exTasks (schedInit Nat exTasks.length 2) exSchedule))[0]? =
      some (outcomeValue (exTasks.getD 0 (Except.error ()))) ∧
    (observedResults (schedRun exTasks (schedInit Nat exTasks.length 2) exSchedule))[1]? =
      some (outcomeValue (exTasks.getD 1 (Except.error ()))) ∧
    (observedResults (schedRun exTasks (schedInit Nat exTasks.length 2) exSchedule))[2]? =
      some (outcomeValue (exTasks.getD 2 (Except.error ()))) :=
  ⟨((withConcurrencyLimit_spec Nat exTasks 2 exSchedule (by decide) (by decide)).2 0
      (by decide)).2,
   ((withConcurrencyLimit_spec Nat exTasks 2 exSchedule (by decide) (by decide)).2 1
      (by decide)).2,
   ((withConcurrencyLimit_spec Nat exTasks 2 exSchedule (by decide) (by decide)).2 2
      (by decide)).2⟩

/-- A list's optional head, when present, is a member. -/
theorem mem_of_head?_eq_some {α : Type} {l : List α} {a : α} (h : l.head? = some a) :
    a ∈ l := by
  cases l with
  | nil => cases h
  | cons x xs =>
      cases h
      exact List.mem_cons_self _ _

/-- A list's optional last element, when present, is a member. -/
theorem mem_of_getLast?_eq_some {α : Type} :
    ∀ {l : List α} {a : α}, l.getLast? = some a → a ∈ l := by
  intro l
  induction l with
  | nil => intro a h; cases h
  | cons x xs ih =>
      intro a h
      cases xs with
      | nil =>
          cases h
          exact List.mem_cons_self _ _
      | cons y ys =>
          rw [List.getLast?_cons_cons] at h
          exact List.mem_cons_of_mem _ (ih h)

/-- A nonempty suffix determines the last element. -/
theorem getLast?_of_suffix {α : Type} {m p : List α} (h : m <:+ p) (hne : m ≠ []) :
    p.getLast? = m.getLast? := by
  obtain ⟨u, rfl⟩ := h
  rw [List.getLast?_append]
  cases hm : m.getLast? with
  | none => exact absurd (List.getLast?_eq_none_iff.mp hm) hne
  | some a => rfl

/-- A nonempty prefix determines the head. -/
theorem head?_of_front {α : Type} {m t : List α} (h : m <+: t) (hne : m ≠ []) :
    t.head? = m.head? := by
  obtain ⟨u, rfl⟩ := h
  rw [List.head?_append]
  cases hm : m.head? with
  | none => exact absurd (List.head?_eq_none_iff.mp hm) hne
  | some a => rfl

/-- An occurrence inside a concatenation lies in the left part, in the
right part, or straddles the boundary. -/
theorem infix_append_cases {α : Type} (m xs ys : List α) (h : m <:+: xs ++ ys) :
    m <:+: xs ∨ m <:+: ys ∨
      ∃ m₁ m₂, m = m₁ ++ m₂ ∧ m₁ ≠ [] ∧ m₂ ≠ [] ∧ m₁ <:+ xs ∧ m₂ <+: ys := by
  obtain ⟨s, t, hst⟩ := h
  rw [List.append_assoc] at hst
  rcases List.append_eq_append_iff.mp hst with ⟨a, hxs, hmt⟩ | ⟨c, _, hys⟩
  · rcases List.append_eq_append_iff.mp hmt with ⟨b, hab, _⟩ | ⟨d, hmd, htd⟩
    · left
      rw [hxs, hab]
      exact ⟨s, b, by rw [List.append_assoc]⟩
    · cases hd : d with
      | nil =>
          left
          rw [hxs, hmd, hd, List.append_nil]
          exact ⟨s, [], by rw [List.append_nil]⟩
      | cons d0 ds =>
          cases ha : a with
          | nil =>
              right; left
              rw [htd, hmd, ha, List.nil_append]
              exact ⟨[], t, by rw [List.nil_append]⟩
          | cons a0 as =>
              right; right
              refine ⟨a, d, hmd, by rw [ha]; exact List.cons_ne_nil _ _,
                by rw [hd]; exact List.cons_ne_nil _ _, ⟨s, hxs.symm⟩, ⟨t, htd.symm⟩⟩
  · right; left
    rw [hys, ← List.append_assoc]
    exact ⟨c, t, rfl⟩

/-- The tail of a quote-guarded piece list is quote-guarded. -/
theorem quoteGuarded_tail {p : List Char} {ps : List (List Char)}
    (h : quoteGuarded (p :: ps)) : quoteGuarded ps := by
  cases ps with
  | nil => trivial
  | cons q rest => exact h.2

/-- A nonempty quote-free string that occurs in no piece of a
quote-guarded piece list does not occur in the concatenation: straddling
any boundary would put the boundary's guarding quote character inside the
string. -/
theorem not_infix_of_quoteGuarded (m : List Char) :
    ∀ ps : List (List Char), m ≠ [] → '"' ∉ m → quoteGuarded ps →
      (∀ p ∈ ps, ¬ m <:+: p) → ¬ m <:+: ps.flatten := by
  intro ps
  induction ps with
  | nil =>
      intro hne _ _ _ h
      exact hne (List.infix_nil.mp h)
  | cons p ps ih =>
      intro hne hq hg hp h
      rw [List.flatten_cons] at h
      rcases infix_append_cases m p ps.flatten h with h1 | h2 | straddle
      · exact hp p (List.mem_cons_self _ _) h1
      · exact ih hne hq (quoteGuarded_tail hg)
          (fun q hqmem => hp q (List.mem_cons_of_mem _ hqmem)) h2
      · obtain ⟨m₁, m₂, hm, hm1ne, hm2ne, hsuf, hpre⟩ := straddle
        cases hps : ps with
        | nil =>
            rw [hps, List.flatten_nil, List.prefix_nil] at hpre
            exact hm2ne hpre
        | cons q rest =>
            rw [hps] at hg
            rcases hg.1 with hlast | hhead
            · have h1 : m₁.getLast? = some '"' := (getLast?_of_suffix hsuf hm1ne) ▸ hlast
              exact hq (hm ▸ List.mem_append_left _ (mem_of_getLast?_eq_some h1))
            · have hqne : q ≠ [] := by
                intro hcontra
                rw [hcontra] at hhead
                cases hhead
              have hflathead : (ps.flatten).head? = some '"' := by
                rw [hps, List.flatten_cons, List.head?_append, hhead]
                rfl
              have h2 : m₂.head? = some '"' := by
                rw [hps] at hpre
                rw [← head?_of_front hpre hm2ne, ← hps]
                exact hflathead
              refine hq (hm ▸ List.mem_append_right _ (mem_of_head?_eq_some h2))

/-- Expanding the tail pieces of the Stage-2 prompt: prefixing the first
item's opening punctuation yields the serialized items body followed by
the closing punctuation and the prompt footer. -/
theorem piecesTail_flatten :
    ∀ (it : ReviewItem) (rest : List ReviewItem),
      itemOpen.data ++ ((piecesTail (it :: rest)).map String.data).flatten =
        (itemsBody (it :: rest)).data ++ ("\n]" ++ stage2PromptFooter).data := by
  intro it rest
  induction rest generalizing it with
  | nil =>
      simp [piecesTail, itemsBody, itemText, String.data_append, List.append_assoc]
  | cons it2 rest2 ih =>
      have hbody : itemsBody (it :: it2 :: rest2) =
          itemText it ++ ",\n" ++ itemsBody (it2 :: rest2) := rfl
      have hpieces : piecesTail (it :: it2 :: rest2) =
          jsonEscape it.label ::
            (itemMid ++ valueText it.analysis ++ itemClose ++ ",\n" ++ itemOpen) ::
            piecesTail (it2 :: rest2) := rfl
      rw [hpieces, hbody]
      have ih2 := ih it2
      simp only [List.map_cons, List.flatten_cons, String.data_append, itemText,
        List.append_assoc] at ih2 ⊢
      rw [ih2]

/-- The Stage-2 user prompt is the concatenation of its piece list. -/
theorem promptPieces_flatten (analyses : List IndividualAnalysis) :
    ((promptPieces analyses).map String.data).flatten = (stage2UserPrompt analyses).data := by
  unfold promptPieces stage2UserPrompt serializeItems
  cases hitems : analysesForReview analyses with
  | nil =>
      simp [String.data_append]
  | cons it rest =>
      have hne : ((it :: rest : List ReviewItem).isEmpty) = false := rfl
      rw [hne]
      have hpt := piecesTail_flatten it rest
      simp only [List.map_cons, List.flatten_cons, String.data_append, Bool.false_eq_true,
        if_false, List.append_assoc] at hpt ⊢
      rw [hpt]

/-- The Stage-2 prompt piece list is quote-guarded. -/
theorem quoteGuarded_promptPieces (analyses : List IndividualAnalysis) :
    quoteGuarded ((promptPieces analyses).map String.data) := by
  have hOpen : itemOpen.data.getLast? = some '"' := by decide
  have hMid : itemMid.data.head? = some '"' := by decide
  have hheadpiece : (stage2PromptHeader ++ "[\n" ++ itemOpen).data.getLast? = some '"' := by
    rw [String.data_append, List.getLast?_append, hOpen]
    rfl
  have hmidlast : ∀ it : ReviewItem,
      (itemMid ++ valueText it.analysis ++ itemClose ++ ",\n" ++ itemOpen).data.getLast? =
        some '"' := by
    intro it
    rw [String.data_append, List.getLast?_append, hOpen]
    rfl
  have hmidhead : ∀ (it : ReviewItem) (s : String),
      (itemMid ++ s).data.head? = some '"' := by
    intro it s
    rw [String.data_append, List.head?_append, hMid]
    rfl
  have htail : ∀ (it : ReviewItem) (rest : List ReviewItem),
      quoteGuarded ((piecesTail (it :: rest)).map String.data) := by
    intro it rest
    induction rest generalizing it with
    | nil =>
        have hp1 : piecesTail [it] = [jsonEscape it.label,
            itemMid ++ valueText it.analysis ++ itemClose ++ "\n]" ++ stage2PromptFooter] := rfl
        rw [hp1]
        simp only [List.map_cons]
        refine ⟨Or.inr ?_, trivial⟩
        have hassoc : itemMid ++ valueText it.analysis ++ itemClose ++ "\n]" ++
            stage2PromptFooter =
            itemMid ++ (valueText it.analysis ++ itemClose ++ "\n]" ++ stage2PromptFooter) := by
          simp [String.append_assoc]
        rw [hassoc]
        exact hmidhead it _
    | cons it2 rest2 ih =>
        have hpieces : piecesTail (it :: it2 :: rest2) =
            jsonEscape it.label ::
              (itemMid ++ valueText it.analysis ++ itemClose ++ ",\n" ++ itemOpen) ::
              piecesTail (it2 :: rest2) := rfl
        rw [hpieces]
        simp only [List.map_cons]
        refine ⟨Or.inr ?_, ?_⟩
        · have : itemMid ++ valueText it.analysis ++ itemClose ++ ",\n" ++ itemOpen =
              itemMid ++ (valueText it.analysis ++ itemClose ++ ",\n" ++ itemOpen) := by
            simp [String.append_assoc]
          rw [this]
          exact hmidhead it _
        · have htl := ih it2
          cases hp : piecesTail (it2 :: rest2) with
          | nil =>
              cases rest2 with
              | nil => cases hp
              | cons a b => cases hp
          | cons q qs =>
              rw [hp] at htl
              simp only [List.map_cons] at htl ⊢
              exact ⟨Or.inl (hmidlast it), htl⟩
  unfold promptPieces
  cases hitems : analysesForReview analyses with
  | nil => trivial
  | cons it rest =>
      dsimp only
      have ht := htail it rest
      cases hp : piecesTail (it :: rest) with
      | nil =>
          cases rest with
          | nil => cases hp
          | cons a b => cases hp
      | cons q qs =>
          rw [hp] at ht
          simp only [List.map_cons] at ht ⊢
          exact ⟨Or.inl hheadpiece, ht⟩

/-- C6: the Stage-2 review payload per analysis consists of exactly the
session label and the analysis content-or-structured-data; the whole
Stage-2 user prompt is invariant under arbitrary rewriting of every
member's internal model id (so no model identifier influences any Stage-2
prompt); and any nonempty model-id string without a double-quote
character that occurs in none of the prompt's constituent pieces
(template/punctuation fragments, escaped labels, serialized analysis
values) does not occur in the constructed Stage-2 user prompt. -/
theorem stage2Prompt_anonymity :
    (∀ (analyses : List IndividualAnalysis) (f : Option String → Option String),
      stage2UserPrompt (analyses.map (withModelId f)) = stage2UserPrompt analyses)
    ∧ (∀ analyses : List IndividualAnalysis,
        analysesForReview analyses = analyses.map fun a =>
          { label := a.label
            analysis :=
              match a.structured with
              | some s => ReviewAnalysisValue.structuredValue s.serialized
              | Option.none => ReviewAnalysisValue.contentValue a.content })
    ∧ (∀ (m : String) (analyses : List IndividualAnalysis),
        m.data ≠ [] → '"' ∉ m.data →
        (∀ p ∈ promptPieces analyses, ¬ m.data <:+: p.data) →
        ¬ m.data <:+: (stage2UserPrompt analyses).data) := by
  refine ⟨?_, ?_, ?_⟩
  · intro analyses f
    unfold stage2UserPrompt
    have : analysesForReview (analyses.map (withModelId f)) = analysesForReview analyses := by
      simp only [analysesForReview, List.map_map]
      rfl
    rw [this]
  · intro analyses
    rfl
  · intro m analyses hne hq hp
    rw [← promptPieces_flatten]
    refine not_infix_of_quoteGuarded m.data _ hne hq (quoteGuarded_promptPieces analyses) ?_
    intro p hpmem
    rcases List.mem_map.mp hpmem with ⟨q, hqmem, rfl⟩
    exact hp q hqmem

set_option maxRecDepth 4000 in
/-- C6 witness: the concrete model id `openai/gpt-4o` occurs in no piece
of the concrete two-analysis prompt (and the prompt is unchanged when all
model ids are erased). -/
theorem stage2Prompt_anonymity_witness :
    (¬ ("openai/gpt-4o".data <:+: (stage2UserPrompt exC6Analyses).data)) ∧
    stage2UserPrompt (exC6Analyses.map (withModelId fun _ => Option.none)) =
      stage2UserPrompt exC6Analyses :=
  ⟨stage2Prompt_anonymity.2.2 "openai/gpt-4o" exC6Analyses (by decide) (by decide)
    (by decide),
   stage2Prompt_anonymity.1 exC6Analyses (fun _ => Option.none)⟩

end LegalCouncil
